import Mathlib

/-!
Verification of the orchestrator queue core (`orchestrator/store.py`,
`orchestrator/models.py`, `orchestrator/server.py`).

The Python code is shallowly embedded: the file-backed `ContextStore` becomes a
record of pure maps from project ids to logs/resolved-id lists, byte strings
become `List Nat` (each element a byte value), and fallible operations return
`Option`.  The store methods `get_queue`, `resolve_entry` and
`get_resolved_ids` are called by the server and exercised by the test suite but
their bodies are not present in the available source; they are modelled from
the specification, as marked in their doc comments.
-/

namespace Wsh

/-- `EventKind` from `models.py`: the tagged kinds, plus the raw-string
fallback used when a stored kind is not one of the five known values. -/
inductive EventKind where
  | status
  | handoff
  | note
  | error
  | approval_needed
  | unrecognized (raw : String)
deriving DecidableEq, Repr

/-- `EventKind.value` / `ContextEntry.kind_value`: the string form of a kind. -/
def EventKind.value : EventKind → String
  | .status => "status"
  | .handoff => "handoff"
  | .note => "note"
  | .error => "error"
  | .approval_needed => "approval_needed"
  | .unrecognized raw => raw

/-- `ContextEntry` from `models.py`.  `refs` (an opaque key→value dict) is
modelled as an association list of strings; `id` is the already-assigned
unique id (in the source a UUID is assigned in `__post_init__` when absent). -/
structure ContextEntry where
  project_id : String
  session_name : String
  actor : String
  kind : EventKind
  text : String
  ts : String
  refs : List (String × String)
  human_attention_needed : Bool
  id : String
deriving DecidableEq, Repr

/-- The file-backed `ContextStore` (`store.py`) as pure state: `projects` is
the directory listing returned by `list_projects`, `events project_id` is the
parsed content of the project's `events.jsonl` (`none` when the file does not
exist), and `resolved_ids project_id` is the project's persisted resolved-id
collection (empty for projects that never saw a resolution). -/
structure ContextStore where
  projects : List String
  events : String → Option (List ContextEntry)
  resolved_ids : String → List String

/-- Python's `parsed[-limit:]`: the last `limit` elements, except that
`limit = 0` gives the whole list (`lst[-0:] == lst`). -/
def pyTail {α : Type} (l : List α) (limit : Nat) : List α :=
  if limit = 0 then l else l.drop (l.length - limit)

/-- `ContextStore.get_events`: return `[]` when the events file is absent,
otherwise optionally filter to entries with timestamp strictly greater than
`since_ts` (skipped when `since_ts` is `None` or falsy, i.e. the empty
string), then keep the last `limit` entries. -/
def ContextStore.get_events (store : ContextStore) (project_id : String)
    (since_ts : Option String) (limit : Nat) : List ContextEntry :=
  match store.events project_id with
  | none => []
  | some parsed =>
    let filtered :=
      match since_ts with
      | none => parsed
      | some s => if s = "" then parsed else parsed.filter (fun e => decide (s < e.ts))
    pyTail filtered limit

/-- Whether a kind is one of the two attention kinds of the queue predicate. -/
def isAttentionKind : EventKind → Bool
  | .error => true
  | .approval_needed => true
  | _ => false

/-- Modelled from the spec: the attention predicate of the Attention-Queue
Deriver — `kind ∈ {error, approval_needed}` OR `human_attention_needed`.
(The deriver `ContextStore.get_queue` is absent from the available source;
only its tests and callers are present.) -/
def attentionNeeded (e : ContextEntry) : Bool :=
  isAttentionKind e.kind || e.human_attention_needed

/-- Modelled from the spec: one project's attention queue — the entries of the
project's full event history matching the attention predicate whose id is not
in the project's resolved-id set, in log append order. -/
def ContextStore.projectQueue (store : ContextStore) (project_id : String) :
    List ContextEntry :=
  ((store.events project_id).getD []).filter
    (fun e => attentionNeeded e && !((store.resolved_ids project_id).contains e.id))

/-- Modelled from the spec: `ContextStore.get_queue` with no project given —
the concatenation of every known project's queue, each internally in append
order, projects in enumeration order. -/
def ContextStore.get_queue (store : ContextStore) : List ContextEntry :=
  store.projects.flatMap store.projectQueue

/-- Modelled from the spec: `ContextStore.get_resolved_ids` exposes the
persisted resolved-id set of a project. -/
def ContextStore.get_resolved_ids (store : ContextStore) (project_id : String) :
    List String :=
  store.resolved_ids project_id

/-- The text of a resolution record: embeds both the action and the optional
rationale. -/
def resolutionText (action text : String) : String :=
  "Resolved [" ++ action ++ "] " ++ text

/-- Modelled from the spec: the Context Entry appended by a successful
resolution — `actor="human"`, `kind=note` (a non-attention kind), text
embedding the action and rationale.  `fresh_id` and `fresh_ts` stand for the
UUID and timestamp assigned on append. -/
def resolutionRecord (project_id action text fresh_id fresh_ts : String) : ContextEntry :=
  { project_id := project_id
    session_name := "orchestrator"
    actor := "human"
    kind := .note
    text := resolutionText action text
    ts := fresh_ts
    refs := []
    human_attention_needed := false
    id := fresh_id }

/-- Modelled from the spec: the success state of `ContextStore.resolve_entry` —
append the resolution record to the project's log and idempotently insert the
entry id into the project's resolved-id set. -/
def ContextStore.resolveState (store : ContextStore)
    (project_id entry_id action text fresh_id fresh_ts : String) : ContextStore :=
  { projects := store.projects
    events := fun p =>
      if p = project_id then
        some ((store.events project_id).getD []
          ++ [resolutionRecord project_id action text fresh_id fresh_ts])
      else store.events p
    resolved_ids := fun p =>
      if p = project_id then
        (if (store.resolved_ids project_id).contains entry_id then
          store.resolved_ids project_id
        else store.resolved_ids project_id ++ [entry_id])
      else store.resolved_ids p }

/-- Modelled from the spec: `ContextStore.resolve_entry` (absent from the
available source; only its tests and callers are present).  `entry_id` must
correspond to some entry in the project's log, found by linear scan; if
absent, signal NotFound (`none`) and perform no mutation; on success, step
to `resolveState`. -/
def ContextStore.resolve_entry (store : ContextStore)
    (project_id entry_id action text fresh_id fresh_ts : String) :
    Option ContextStore :=
  if ((store.events project_id).getD []).any (fun e => e.id == entry_id) then
    some (store.resolveState project_id entry_id action text fresh_id fresh_ts)
  else
    none

/-! ### WebSocket protocol helpers (`server.py`) -/

/-- Text frame opcode. -/
def OP_TEXT : Nat := 0x1

/-- Close frame opcode. -/
def OP_CLOSE : Nat := 0x8

/-- Ping frame opcode. -/
def OP_PING : Nat := 0x9

/-- Pong frame opcode. -/
def OP_PONG : Nat := 0xA

/-- `struct.pack("!H", n)`: two big-endian bytes (callers guarantee
`n < 65536`). -/
def pack16be (n : Nat) : List Nat :=
  [n / 256 % 256, n % 256]

/-- `struct.pack("!Q", n)`: eight big-endian bytes (callers guarantee
`n < 2 ^ 64`). -/
def pack64be (n : Nat) : List Nat :=
  [n / 256 ^ 7 % 256, n / 256 ^ 6 % 256, n / 256 ^ 5 % 256, n / 256 ^ 4 % 256,
   n / 256 ^ 3 % 256, n / 256 ^ 2 % 256, n / 256 % 256, n % 256]

/-- `reader.readexactly(n)` on a byte stream: the first `n` bytes and the
remainder, or `none` (an `IncompleteReadError`) when fewer than `n` bytes
remain. -/
def readExactly (n : Nat) (s : List Nat) : Option (List Nat × List Nat) :=
  if n ≤ s.length then some (s.take n, s.drop n) else none

/-- `bytes(b ^ mask[i % 4] for i, b in enumerate(payload))`. -/
def applyMask (mask payload : List Nat) : List Nat :=
  payload.enum.map (fun p => p.2 ^^^ mask.getD (p.1 % 4) 0)

/-- The length stage of `ws_read_frame`: low 7 bits of the second byte, with
126 escaping to a 16-bit big-endian length and 127 to a 64-bit big-endian
length read from the stream. -/
def parseLength (len0 : Nat) (s : List Nat) : Option (Nat × List Nat) :=
  if len0 = 126 then
    match s with
    | a :: b :: r => some (a * 256 + b, r)
    | _ => none
  else if len0 = 127 then
    match s with
    | b0 :: b1 :: b2 :: b3 :: b4 :: b5 :: b6 :: b7 :: r =>
        some (((((((b0 * 256 + b1) * 256 + b2) * 256 + b3) * 256 + b4) * 256 + b5) * 256
          + b6) * 256 + b7, r)
    | _ => none
  else
    some (len0, s)

/-- The mask stage of `ws_read_frame`: when the mask bit is set, read the
4-byte mask key. -/
def parseMask (masked : Nat) (s : List Nat) : Option (Option (List Nat) × List Nat) :=
  if masked = 1 then
    match readExactly 4 s with
    | some (m, r) => some (some m, r)
    | none => none
  else
    some (none, s)

/-- `ws_read_frame`: parse one frame from the byte stream, returning the
opcode (low 4 bits of the first byte), the unmasked payload, and the
remaining stream; `none` models the exception raised on a truncated read. -/
def ws_read_frame (s : List Nat) : Option (Nat × List Nat × List Nat) :=
  match s with
  | b0 :: b1 :: rest =>
    match parseLength (b1 &&& 0x7F) rest with
    | none => none
    | some (length, r1) =>
      match parseMask ((b1 >>> 7) &&& 1) r1 with
      | none => none
      | some (mask, r2) =>
        match readExactly length r2 with
        | none => none
        | some (payload, r3) =>
          some (b0 &&& 0xF,
            (match mask with
             | some m => applyMask m payload
             | none => payload),
            r3)
  | _ => none

/-- `ws_write_frame`: FIN bit plus opcode, then the length (literal below
126, escape 126 plus 16-bit big-endian length below 65536, otherwise escape
127 plus 64-bit big-endian length), then the unmasked payload — server
frames are never masked. -/
def ws_write_frame (opcode : Nat) (payload : List Nat) : List Nat :=
  (if payload.length < 126 then
    [0x80 ||| opcode, payload.length]
  else if payload.length < 65536 then
    [0x80 ||| opcode, 126] ++ pack16be payload.length
  else
    [0x80 ||| opcode, 127] ++ pack64be payload.length) ++ payload

/-- A successful `readExactly` consumes exactly `n` bytes. -/
theorem readExactly_eq_some {n : Nat} {s a r : List Nat}
    (h : readExactly n s = some (a, r)) :
    a = s.take n ∧ r = s.drop n ∧ n ≤ s.length := by
  unfold readExactly at h
  split at h
  · cases h
    exact ⟨rfl, rfl, by assumption⟩
  · cases h

/-- The length stage never grows the stream. -/
theorem parseLength_length_le {len0 : Nat} {s r : List Nat} {n : Nat}
    (h : parseLength len0 s = some (n, r)) : r.length ≤ s.length := by
  unfold parseLength at h
  split at h
  · match s, h with
    | a :: b :: t, h => cases h; simp; omega
  · split at h
    · match s, h with
      | b0 :: b1 :: b2 :: b3 :: b4 :: b5 :: b6 :: b7 :: t, h => cases h; simp; omega
    · cases h; exact Nat.le_refl _

/-- The mask stage never grows the stream. -/
theorem parseMask_length_le {masked : Nat} {s r : List Nat} {m : Option (List Nat)}
    (h : parseMask masked s = some (m, r)) : r.length ≤ s.length := by
  unfold parseMask at h
  split at h
  · match hr : readExactly 4 s with
    | some (a, t) =>
        rw [hr] at h
        cases h
        have := (readExactly_eq_some hr).2.1
        subst this
        simp
    | none => rw [hr] at h; cases h
  · cases h; exact Nat.le_refl _

/-- A successfully parsed frame consumes at least its two header bytes. -/
theorem ws_read_frame_rest_lt {s : List Nat} {op : Nat} {p r : List Nat}
    (h : ws_read_frame s = some (op, p, r)) : r.length + 2 ≤ s.length := by
  match s with
  | [] => cases h
  | [_] => cases h
  | b0 :: b1 :: rest =>
    simp only [ws_read_frame] at h
    match h1 : parseLength (b1 &&& 0x7F) rest with
    | none => rw [h1] at h; cases h
    | some (length, r1) =>
      rw [h1] at h
      simp only at h
      match h2 : parseMask ((b1 >>> 7) &&& 1) r1 with
      | none => rw [h2] at h; cases h
      | some (mask, r2) =>
        rw [h2] at h
        simp only at h
        match h3 : readExactly length r2 with
        | none => rw [h3] at h; cases h
        | some (payload, r3) =>
          rw [h3] at h
          simp only at h
          cases h
          have e1 := parseLength_length_le h1
          have e2 := parseMask_length_le h2
          have e3 := (readExactly_eq_some h3).2.1
          subst e3
          have : r2.length - length ≤ r2.length := Nat.sub_le _ _
          simp only [List.length_drop, List.length_cons]
          omega

/-- The outcome of `WebSocketConnection.recv` on a byte stream: the value
returned to the application (`none` for close/error/non-text), whether
`self.closed` was set, the frames written back (the automatic pongs), and
the unconsumed remainder of the stream. -/
structure RecvResult where
  result : Option (List Nat)
  closed : Bool
  writes : List (Nat × List Nat)
  rest : List Nat
deriving DecidableEq, Repr

/-- `WebSocketConnection.recv`: read one frame; a close frame marks the
connection closed and returns `None`; a ping frame writes back a pong with
the same payload and recurses; a text frame returns its payload; any other
opcode returns `None` without closing; any read error marks the connection
closed and returns `None` instead of propagating.  (The source returns the
UTF-8 decode of a text payload; the payload bytes are returned unmodelled.) -/
def recv (s : List Nat) : RecvResult :=
  match h : ws_read_frame s with
  | none => ⟨none, true, [], s⟩
  | some (op, payload, rest) =>
    if op = OP_CLOSE then
      ⟨none, true, [], rest⟩
    else if op = OP_PING then
      let r := recv rest
      ⟨r.result, r.closed, (OP_PONG, payload) :: r.writes, r.rest⟩
    else if op = OP_TEXT then
      ⟨some payload, false, [], rest⟩
    else
      ⟨none, false, [], rest⟩
termination_by s.length
decreasing_by
  have := ws_read_frame_rest_lt h
  omega

/-! ### Queue server (`server.py`) -/

/-- The application messages pushed over a WebSocket connection. -/
inductive WsMessage where
  | queue_snapshot (entries : List ContextEntry)
  | queue_add (entry : ContextEntry)
  | queue_remove (id : String)
deriving DecidableEq, Repr

/-- One tick of `QueueServer._poll_queue`, as a pure function of the
remembered id set and the result of `store.get_queue()` (`none` models an
exception raised during the tick): broadcast `queue_add` for every current
entry whose id was not remembered, then `queue_remove` for every remembered
id no longer current, and remember the current ids; on error, broadcast
nothing and leave the remembered set unchanged. -/
def pollTick (known : List String) (queueResult : Option (List ContextEntry)) :
    List WsMessage × List String :=
  match queueResult with
  | none => ([], known)
  | some current =>
    let current_ids := current.map (fun e => e.id)
    ((current.filter (fun e => !known.contains e.id)).map WsMessage.queue_add
       ++ (known.filter (fun i => !current_ids.contains i)).map WsMessage.queue_remove,
     current_ids)

/-- The polling loop of `QueueServer._poll_queue` over a finite schedule of
tick results: the broadcast messages in order, and the final remembered set.
The `while True` / `except` structure means every tick runs regardless of
earlier failures. -/
def pollLoop (known : List String) (ticks : List (Option (List ContextEntry))) :
    List WsMessage × List String :=
  match ticks with
  | [] => ([], known)
  | t :: ts =>
    let step := pollTick known t
    let rest := pollLoop step.2 ts
    (step.1 ++ rest.1, rest.2)

/-- The server state touched by a WebSocket upgrade: the connection registry
(connections named by numbers) and the broadcaster's remembered id set. -/
structure ServerState where
  ws_clients : List Nat
  known_queue_ids : List String

/-- `QueueServer._handle_ws_upgrade` after the 101 handshake: register the
connection, then send it a full queue snapshot as its first application
message. -/
def handleWsUpgrade (store : ContextStore) (state : ServerState) (conn : Nat) :
    ServerState × List WsMessage :=
  ({ state with ws_clients := conn :: state.ws_clients },
   [WsMessage.queue_snapshot store.get_queue])

/-- The application messages a newly upgraded connection receives during its
session: the upgrade-time messages followed by every message broadcast by
subsequent poll ticks (the connection is registered before any of them). -/
def connSessionMessages (store : ContextStore) (state : ServerState) (conn : Nat)
    (ticks : List (Option (List ContextEntry))) : List WsMessage :=
  (handleWsUpgrade store state conn).2
    ++ (pollLoop state.known_queue_ids ticks).1

/-- An HTTP response: status code and body text. -/
structure HttpResponse where
  status : Nat
  body : String
deriving DecidableEq, Repr

/-- The decoded body of a resolve request: `malformed` models a
`json.JSONDecodeError` from `json.loads`; otherwise the `action` and `text`
members of the JSON object, when present.  (An empty body yields the empty
object, i.e. `obj none none`.) -/
inductive JsonBody where
  | malformed
  | obj (action : Option String) (text : Option String)
deriving DecidableEq, Repr

/-- `json.dumps({"resolved": True, "id": entry_id, "action": action})`. -/
def resolveOkBody (entry_id action : String) : String :=
  "\x7b\"resolved\": true, \"id\": \"" ++ entry_id ++ "\", \"action\": \"" ++ action
    ++ "\"\x7d"

/-- `QueueServer._resolve_entry`: default the action to `"acknowledge"` and
the text to `""`, scan each project's most recent 1000 events for the entry
id, and on the first hit resolve it in the store and report the id and
action; `none` when no scanned window contains the id.  `fresh_id` and
`fresh_ts` stand for the UUID and timestamp of the appended resolution
record; the returned store is the (possibly) mutated one. -/
def QueueServer.resolveEntry (store : ContextStore) (entry_id : String)
    (payload_action payload_text : Option String) (fresh_id fresh_ts : String) :
    Option (String × String) × ContextStore :=
  let action := payload_action.getD "acknowledge"
  let text := payload_text.getD ""
  match store.projects.find?
      (fun pid => (store.get_events pid none 1000).any (fun e => e.id == entry_id)) with
  | some pid =>
      (some (entry_id, action),
       (store.resolve_entry pid entry_id action text fresh_id fresh_ts).getD store)
  | none => (none, store)

/-- The `POST /queue/{id}/resolve` arm of `QueueServer._handle_http`: 400 on
a body that fails to parse as JSON, otherwise 200 with the resolve result or
404 when `_resolve_entry` found nothing. -/
def QueueServer.handleQueuePost (store : ContextStore) (entry_id : String)
    (body : JsonBody) (fresh_id fresh_ts : String) : HttpResponse × ContextStore :=
  match body with
  | .malformed => (⟨400, "\x7b\"error\":\"invalid json\"\x7d"⟩, store)
  | .obj action? text? =>
    match QueueServer.resolveEntry store entry_id action? text? fresh_id fresh_ts with
    | (some (eid, action), store') => (⟨200, resolveOkBody eid action⟩, store')
    | (none, store') => (⟨404, "\x7b\"error\":\"entry not found\"\x7d"⟩, store')

/-! ### Concrete stores used to instantiate hypotheses -/

/-- A single approval-needed entry, as in the tests. -/
def sampleEntry : ContextEntry :=
  { project_id := "p1", session_name := "s1", actor := "agent",
    kind := .approval_needed, text := "deploy?", ts := "t0", refs := [],
    human_attention_needed := false, id := "e1" }

/-- A store with one project `p1` whose log holds just `sampleEntry`. -/
def sampleStore : ContextStore :=
  { projects := ["p1"]
    events := fun p => if p = "p1" then some [sampleEntry] else none
    resolved_ids := fun _ => [] }

/-! ### Claims -/

/-- The two attention kinds, as propositions. -/
theorem isAttentionKind_iff (k : EventKind) :
    isAttentionKind k = true ↔ k = .error ∨ k = .approval_needed := by
  cases k <;> simp [isAttentionKind]

/-- C1: the store's queue derivation returns exactly the project's entries
whose kind is error or approval_needed or whose attention flag is set, minus
the resolved ids, in log append order (a sublist of the log); with no
project given, the concatenation over all known projects (each item taken
unchanged from its project's queue, so its `project_id` is preserved). -/
theorem C1_queue_derivation (store : ContextStore) (pid : String) :
    (∀ e, e ∈ store.projectQueue pid ↔
        e ∈ (store.events pid).getD [] ∧
          (e.kind = .error ∨ e.kind = .approval_needed ∨ e.human_attention_needed = true) ∧
          e.id ∉ store.resolved_ids pid)
      ∧ List.Sublist (store.projectQueue pid) ((store.events pid).getD [])
      ∧ (∀ e, e ∈ store.get_queue ↔ ∃ p ∈ store.projects, e ∈ store.projectQueue p) := by
  refine ⟨fun e => ?_, List.filter_sublist _, fun e => ?_⟩
  · simp only [ContextStore.projectQueue, List.mem_filter, attentionNeeded,
      Bool.and_eq_true, Bool.or_eq_true, Bool.not_eq_true']
    constructor
    · rintro ⟨hmem, hattn, hres⟩
      refine ⟨hmem, ?_, ?_⟩
      · rcases hattn with h | h
        · rcases (isAttentionKind_iff e.kind).mp h with h | h
          · exact Or.inl h
          · exact Or.inr (Or.inl h)
        · exact Or.inr (Or.inr h)
      · intro hmem'
        exact absurd hmem' (by simpa using hres)
    · rintro ⟨hmem, hattn, hres⟩
      refine ⟨hmem, ?_, ?_⟩
      · rcases hattn with h | h | h
        · exact Or.inl ((isAttentionKind_iff e.kind).mpr (Or.inl h))
        · exact Or.inl ((isAttentionKind_iff e.kind).mpr (Or.inr h))
        · exact Or.inr h
      · simpa using hres
  · simp [ContextStore.get_queue, List.mem_flatMap]

/-- Characterization of a successful `resolve_entry`: the result is the
`resolveState`, with only the target project's log and resolved-id set
touched. -/
theorem resolve_entry_some_spec {store store' : ContextStore}
    {pid eid a t f s : String}
    (h : store.resolve_entry pid eid a t f s = some store') :
    (((store.events pid).getD []).any (fun e => e.id == eid) = true)
      ∧ store'.projects = store.projects
      ∧ store'.events pid =
          some ((store.events pid).getD [] ++ [resolutionRecord pid a t f s])
      ∧ (∀ p, p ≠ pid → store'.events p = store.events p)
      ∧ store'.resolved_ids pid =
          (if (store.resolved_ids pid).contains eid then store.resolved_ids pid
           else store.resolved_ids pid ++ [eid])
      ∧ (∀ p, p ≠ pid → store'.resolved_ids p = store.resolved_ids p) := by
  simp only [ContextStore.resolve_entry] at h
  split at h
  case isTrue hany =>
    cases h
    refine ⟨hany, rfl, ?_, ?_, ?_, ?_⟩
    · show (if pid = pid then _ else _) = _
      rw [if_pos rfl]
    · intro p hp
      show (if p = pid then _ else _) = _
      rw [if_neg hp]
    · show (if pid = pid then _ else _) = _
      rw [if_pos rfl]
    · intro p hp
      show (if p = pid then _ else _) = _
      rw [if_neg hp]
  case isFalse => cases h

/-- The resolved-id set after a successful resolution contains the entry id. -/
theorem resolve_entry_some_mem {store store' : ContextStore}
    {pid eid a t f s : String}
    (h : store.resolve_entry pid eid a t f s = some store') :
    (store'.resolved_ids pid).contains eid = true := by
  rw [(resolve_entry_some_spec h).2.2.2.2.1]
  by_cases hc : (store.resolved_ids pid).contains eid = true
  · rw [if_pos hc]
    exact hc
  · rw [if_neg hc]
    simp

/-- C2: resolving an entry id absent from the project's log signals NotFound
(`none`, and the pure encoding performs no mutation — the caller's store is
untouched); resolving a present id succeeds, records the id in the project's
persisted resolved-id set, and appends a Context Entry with actor `"human"`
and a non-attention kind whose text contains both the action and the
rationale. -/
theorem C2_resolve_contract (store : ContextStore)
    (pid eid action text fid fts : String) :
    ((∀ e ∈ (store.events pid).getD [], e.id ≠ eid) →
        store.resolve_entry pid eid action text fid fts = none)
      ∧ ((∃ e ∈ (store.events pid).getD [], e.id = eid) →
        ∃ store', store.resolve_entry pid eid action text fid fts = some store' ∧
          eid ∈ store'.get_resolved_ids pid ∧
          ∃ res, (store'.events pid).getD [] = (store.events pid).getD [] ++ [res] ∧
            res.actor = "human" ∧ res.kind = .note ∧ attentionNeeded res = false ∧
            (∃ a b, res.text = a ++ action ++ b) ∧
            (∃ a b, res.text = a ++ text ++ b)) := by
  constructor
  · intro habsent
    have hany : ((store.events pid).getD []).any (fun e => e.id == eid) = false := by
      rw [Bool.eq_false_iff]
      intro hcontra
      obtain ⟨e, hmem, heq⟩ := List.any_eq_true.mp hcontra
      exact habsent e hmem (by simpa using heq)
    simp [ContextStore.resolve_entry, hany]
  · rintro ⟨e, hmem, heq⟩
    have hany : ((store.events pid).getD []).any (fun e => e.id == eid) = true :=
      List.any_eq_true.mpr ⟨e, hmem, by simpa using heq⟩
    have hsome : store.resolve_entry pid eid action text fid fts =
        some (store.resolveState pid eid action text fid fts) := by
      simp [ContextStore.resolve_entry, hany]
    obtain ⟨-, -, hev, -, -, -⟩ := resolve_entry_some_spec hsome
    refine ⟨_, hsome, ?_, ?_⟩
    · have := resolve_entry_some_mem hsome
      simpa [ContextStore.get_resolved_ids] using this
    · refine ⟨resolutionRecord pid action text fid fts,
        by rw [hev]; simp, rfl, rfl, rfl, ⟨"Resolved [", "] " ++ text, ?_⟩,
        ⟨"Resolved [" ++ action ++ "] ", "", ?_⟩⟩
      · simp [resolutionRecord, resolutionText, String.append_assoc]
      · simp [resolutionRecord, resolutionText, String.append_assoc]

/-- Instantiation of the success branch of the resolve contract on
`sampleStore`. -/
theorem C2_resolve_contract_witness :
    ∃ store', sampleStore.resolve_entry "p1" "e1" "approve" "LGTM" "r1" "t1" = some store' ∧
      "e1" ∈ store'.get_resolved_ids "p1" ∧
      ∃ res, (store'.events "p1").getD [] = (sampleStore.events "p1").getD [] ++ [res] ∧
        res.actor = "human" ∧ res.kind = .note ∧ attentionNeeded res = false ∧
        (∃ a b, res.text = a ++ "approve" ++ b) ∧
        (∃ a b, res.text = a ++ "LGTM" ++ b) :=
  (C2_resolve_contract sampleStore "p1" "e1" "approve" "LGTM" "r1" "t1").2
    ⟨sampleEntry, by simp [sampleStore, sampleEntry], rfl⟩

/-- C3: resolving the same entry id twice does not error — the second call
also succeeds — leaves the resolved-id set exactly as after the first call
(no duplicate resolved-id entry), and the entry stays absent from the
project's derived queue; it is absent from the cross-project queue as well
whenever no other project's log reuses the id (ids are globally unique). -/
theorem C3_resolve_idempotent (store store₁ : ContextStore)
    (pid eid a₁ t₁ f₁ s₁ a₂ t₂ f₂ s₂ : String)
    (h₁ : store.resolve_entry pid eid a₁ t₁ f₁ s₁ = some store₁) :
    ∃ store₂, store₁.resolve_entry pid eid a₂ t₂ f₂ s₂ = some store₂ ∧
      store₂.get_resolved_ids pid = store₁.get_resolved_ids pid ∧
      (∀ e ∈ store₂.projectQueue pid, e.id ≠ eid) ∧
      ((∀ p, p ≠ pid → ∀ e ∈ (store.events p).getD [], e.id ≠ eid) →
        ∀ e ∈ store₂.get_queue, e.id ≠ eid) := by
  obtain ⟨hany₁, -, hev₁, hevOther₁, -, hresOther₁⟩ := resolve_entry_some_spec h₁
  have hmem₁ := resolve_entry_some_mem h₁
  have hany₂ : ((store₁.events pid).getD []).any (fun e => e.id == eid) = true := by
    rw [hev₁]
    simp only [Option.getD_some, List.any_append, hany₁, Bool.true_or]
  have h₂ : store₁.resolve_entry pid eid a₂ t₂ f₂ s₂ =
      some (store₁.resolveState pid eid a₂ t₂ f₂ s₂) := by
    simp [ContextStore.resolve_entry, hany₂]
  obtain ⟨-, hproj₂, -, hevOther₂, hres₂, hresOther₂⟩ := resolve_entry_some_spec h₂
  have hresEq : (store₁.resolveState pid eid a₂ t₂ f₂ s₂).resolved_ids pid =
      store₁.resolved_ids pid := by
    rw [hres₂, if_pos hmem₁]
  have hqueue : ∀ e ∈ (store₁.resolveState pid eid a₂ t₂ f₂ s₂).projectQueue pid,
      e.id ≠ eid := by
    intro e he heq
    obtain ⟨-, hfilter⟩ := List.mem_filter.mp he
    rw [Bool.and_eq_true, Bool.not_eq_true'] at hfilter
    rw [hresEq, heq] at hfilter
    rw [hmem₁] at hfilter
    cases hfilter.2
  refine ⟨_, h₂, hresEq, hqueue, ?_⟩
  intro hunique e he heq
  obtain ⟨p, hp, hpe⟩ := List.mem_flatMap.mp he
  by_cases hppid : p = pid
  · subst hppid
    exact hqueue e hpe heq
  · obtain ⟨hmem, -⟩ := List.mem_filter.mp hpe
    rw [hevOther₂ p hppid, hevOther₁ p hppid] at hmem
    exact hunique p hppid e hmem heq

/-- Instantiation of the idempotence theorem on `sampleStore`, whose first
resolution is computed by `rfl`. -/
theorem C3_resolve_idempotent_witness :
    ∃ store₂, ((sampleStore.resolveState "p1" "e1" "approve" "LGTM" "r1" "t1")).resolve_entry
        "p1" "e1" "reject" "changed my mind" "r2" "t2" = some store₂ ∧
      store₂.get_resolved_ids "p1" =
        (sampleStore.resolveState "p1" "e1" "approve" "LGTM" "r1" "t1").get_resolved_ids "p1" ∧
      (∀ e ∈ store₂.projectQueue "p1", e.id ≠ "e1") ∧
      ((∀ p, p ≠ "p1" → ∀ e ∈ (sampleStore.events p).getD [], e.id ≠ "e1") →
        ∀ e ∈ store₂.get_queue, e.id ≠ "e1") :=
  C3_resolve_idempotent sampleStore
    (sampleStore.resolveState "p1" "e1" "approve" "LGTM" "r1" "t1")
    "p1" "e1" "approve" "LGTM" "r1" "t1" "reject" "changed my mind" "r2" "t2" rfl

/-- C9: reading events of a project with no stored log yields `[]` rather
than an error; otherwise the result is the most recent `limit` entries of
the log in append order (a suffix of the log of length `min limit |log|`),
and a `since` timestamp restricts consideration to entries strictly after
it. -/
theorem C9_get_events (store : ContextStore) (pid : String) :
    (store.events pid = none →
        ∀ since limit, store.get_events pid since limit = [])
      ∧ (∀ log, store.events pid = some log →
        (∀ limit, 0 < limit →
          (store.get_events pid none limit).length = min limit log.length)
        ∧ (∀ limit, List.IsSuffix (store.get_events pid none limit) log)
        ∧ (∀ ts limit, ts ≠ "" →
            List.IsSuffix (store.get_events pid (some ts) limit)
                (log.filter (fun e => decide (ts < e.ts)))
              ∧ ∀ e ∈ store.get_events pid (some ts) limit, ts < e.ts)) := by
  constructor
  · intro hnone since limit
    simp [ContextStore.get_events, hnone]
  · intro log hsome
    have htail : ∀ l : List ContextEntry, ∀ limit, List.IsSuffix (pyTail l limit) l := by
      intro l limit
      unfold pyTail
      split
      · exact List.suffix_refl l
      · exact List.drop_suffix _ l
    refine ⟨?_, ?_, ?_⟩
    · intro limit hpos
      simp only [ContextStore.get_events, hsome]
      unfold pyTail
      rw [if_neg (Nat.pos_iff_ne_zero.mp hpos)]
      simp only [List.length_drop]
      omega
    · intro limit
      simpa only [ContextStore.get_events, hsome] using htail log limit
    · intro ts limit hts
      have hreduce : store.get_events pid (some ts) limit =
          pyTail (log.filter (fun e => decide (ts < e.ts))) limit := by
        simp only [ContextStore.get_events, hsome]
        rw [if_neg hts]
      refine ⟨?_, ?_⟩
      · rw [hreduce]
        exact htail _ limit
      · intro e he
        rw [hreduce] at he
        have hmem : e ∈ log.filter (fun e => decide (ts < e.ts)) :=
          (htail _ limit).sublist.mem he
        exact of_decide_eq_true (List.mem_filter.mp hmem).2

/-- Instantiation of the read contract: an unknown project reads as empty,
and a one-entry log reads back in full. -/
theorem C9_get_events_witness :
    sampleStore.get_events "p2" none 100 = []
      ∧ (sampleStore.get_events "p1" none 100).length = min 100 1
      ∧ List.IsSuffix (sampleStore.get_events "p1" none 100) [sampleEntry]
      ∧ ∀ e ∈ sampleStore.get_events "p1" (some "zz") 100, "zz" < e.ts :=
  ⟨(C9_get_events sampleStore "p2").1 rfl none 100,
   by
     have := ((C9_get_events sampleStore "p1").2 [sampleEntry] rfl).1 100 (by decide)
     simpa using this,
   ((C9_get_events sampleStore "p1").2 [sampleEntry] rfl).2.1 100,
   (((C9_get_events sampleStore "p1").2 [sampleEntry] rfl).2.2 "zz" 100 (by decide)).2⟩

/-- A filler event that needs no attention. -/
def fillerEntry : ContextEntry :=
  { project_id := "p1", session_name := "s1", actor := "agent", kind := .status,
    text := "routine", ts := "", refs := [], human_attention_needed := false,
    id := "x" }

/-- An approval-needed entry that will sit more than 1000 positions from the
end of the log. -/
def oldApproval : ContextEntry :=
  { project_id := "p1", session_name := "s1", actor := "agent",
    kind := .approval_needed, text := "old deploy?", ts := "", refs := [],
    human_attention_needed := false, id := "target" }

/-- A store whose single project has `oldApproval` followed by 1000 filler
events, pushing `oldApproval` outside the server's 1000-event scan window. -/
def deepStore : ContextStore :=
  { projects := ["p1"]
    events := fun p =>
      if p = "p1" then some (oldApproval :: List.replicate 1000 fillerEntry) else none
    resolved_ids := fun _ => [] }

/-- `get_events` with no `since` filter and limit 1000 is exactly the last
1000 entries of the log. -/
theorem get_events_none_1000 (store : ContextStore) (p : String) :
    store.get_events p none 1000 =
      ((store.events p).getD []).drop (((store.events p).getD []).length - 1000) := by
  cases hev : store.events p <;> simp [ContextStore.get_events, hev, pyTail]

/-- Shared helper: when no known project's last-1000 window contains the id,
the resolve endpoint answers 404 with the `entry not found` body. -/
theorem handleQueuePost_404_of_window_miss (store : ContextStore) (eid : String)
    (a? t? : Option String) (fid fts : String)
    (hwindow : ∀ p ∈ store.projects,
      ∀ e ∈ ((store.events p).getD []).drop (((store.events p).getD []).length - 1000),
        e.id ≠ eid) :
    (QueueServer.handleQueuePost store eid (.obj a? t?) fid fts).1 =
      ⟨404, "\x7b\"error\":\"entry not found\"\x7d"⟩ := by
  have hfind : store.projects.find?
      (fun pid => (store.get_events pid none 1000).any (fun e => e.id == eid)) = none := by
    rw [List.find?_eq_none]
    intro p hp hpred
    obtain ⟨e, hmem, heq⟩ := List.any_eq_true.mp hpred
    rw [get_events_none_1000] at hmem
    exact hwindow p hp e hmem (by simpa using heq)
  simp [QueueServer.handleQueuePost, QueueServer.resolveEntry, hfind]

/-- No entry of `deepStore`'s scan window carries the id `target`: the window
is exactly the 1000 filler events. -/
theorem deepStore_window_misses_target : ∀ p ∈ deepStore.projects,
    ∀ e ∈ ((deepStore.events p).getD []).drop (((deepStore.events p).getD []).length - 1000),
      e.id ≠ "target" := by
  intro p hp e he
  rw [show deepStore.projects = ["p1"] from rfl] at hp
  have hp1 : p = "p1" := by simpa using hp
  subst hp1
  have hlist : (deepStore.events "p1").getD [] =
      oldApproval :: List.replicate 1000 fillerEntry := rfl
  rw [hlist] at he
  have hlen : (oldApproval :: List.replicate 1000 fillerEntry).length - 1000 = 1 := by
    simp only [List.length_cons, List.length_replicate]
  rw [hlen, List.drop_one, List.tail_cons] at he
  have hfill := List.eq_of_mem_replicate he
  subst hfill
  decide

/-- C4 (amended): for `POST /queue/{id}/resolve`, a body that is not valid
JSON yields 400; an id matching no entry in any project's log yields 404
with body `{"error":"entry not found"}`; an id matching an entry within the
most recent 1000 events of some known project's log yields 200 with a body
carrying `resolved:true`, the id, and the action. -/
theorem C4_resolve_endpoint (store : ContextStore) (eid : String)
    (a? t? : Option String) (fid fts : String) :
    ((QueueServer.handleQueuePost store eid .malformed fid fts).1.status = 400)
      ∧ ((∀ p, ∀ e ∈ (store.events p).getD [], e.id ≠ eid) →
        (QueueServer.handleQueuePost store eid (.obj a? t?) fid fts).1 =
          ⟨404, "\x7b\"error\":\"entry not found\"\x7d"⟩)
      ∧ ((∃ p ∈ store.projects, ∃ e ∈ store.get_events p none 1000, e.id = eid) →
        (QueueServer.handleQueuePost store eid (.obj a? t?) fid fts).1 =
          ⟨200, resolveOkBody eid (a?.getD "acknowledge")⟩) := by
  refine ⟨rfl, ?_, ?_⟩
  · intro habsent
    have hfind : store.projects.find?
        (fun pid => (store.get_events pid none 1000).any (fun e => e.id == eid)) = none := by
      rw [List.find?_eq_none]
      intro p hp hpred
      obtain ⟨e, hmem, heq⟩ := List.any_eq_true.mp hpred
      have hlog : e ∈ (store.events p).getD [] := by
        rw [get_events_none_1000] at hmem
        exact (List.drop_suffix _ _).sublist.mem hmem
      exact habsent p e hlog (by simpa using heq)
    simp [QueueServer.handleQueuePost, QueueServer.resolveEntry, hfind]
  · rintro ⟨p, hp, e, hmem, heq⟩
    have hsome : (store.projects.find?
        (fun pid => (store.get_events pid none 1000).any (fun e => e.id == eid))).isSome := by
      rw [List.find?_isSome]
      exact ⟨p, hp, List.any_eq_true.mpr ⟨e, hmem, by simpa using heq⟩⟩
    obtain ⟨pid', hfind⟩ := Option.isSome_iff_exists.mp hsome
    simp [QueueServer.handleQueuePost, QueueServer.resolveEntry, hfind]

/-- The claim that a matching id always yields 200 fails on the code: in
`deepStore` the entry `target` is present in project `p1`'s log, yet the
endpoint answers 404, because the scan looks only at the most recent 1000
events. -/
theorem C4_resolve_endpoint_counterexample :
    (∃ e ∈ (deepStore.events "p1").getD [], e.id = "target")
      ∧ (QueueServer.handleQueuePost deepStore "target" (.obj (some "approve") none)
          "f" "t").1.status = 404
      ∧ ¬ (QueueServer.handleQueuePost deepStore "target" (.obj (some "approve") none)
          "f" "t").1.status = 200 := by
  have h404 := handleQueuePost_404_of_window_miss deepStore "target"
    (some "approve") none "f" "t" deepStore_window_misses_target
  refine ⟨⟨oldApproval, ?_, rfl⟩, ?_, ?_⟩
  · show oldApproval ∈ oldApproval :: List.replicate 1000 fillerEntry
    exact List.mem_cons_self _ _
  · rw [h404]
  · rw [h404]
    decide

/-- Instantiation of the endpoint contract: malformed body, unknown id, and
an id inside the scan window. -/
theorem C4_resolve_endpoint_witness :
    ((QueueServer.handleQueuePost sampleStore "e1" .malformed "f" "t").1.status = 400)
      ∧ (QueueServer.handleQueuePost sampleStore "nope" (.obj (some "approve") none)
          "f" "t").1 = ⟨404, "\x7b\"error\":\"entry not found\"\x7d"⟩
      ∧ (QueueServer.handleQueuePost sampleStore "e1" (.obj (some "approve") none)
          "f" "t").1 = ⟨200, resolveOkBody "e1" "approve"⟩ :=
  ⟨(C4_resolve_endpoint sampleStore "e1" (some "approve") none "f" "t").1,
   (C4_resolve_endpoint sampleStore "nope" (some "approve") none "f" "t").2.1
     (by
       intro p e hmem
       by_cases hp : p = "p1"
       · subst hp
         have he : e = sampleEntry := by simpa [sampleStore] using hmem
         subst he
         decide
       · simp [sampleStore, hp] at hmem),
   (C4_resolve_endpoint sampleStore "e1" (some "approve") none "f" "t").2.2
     ⟨"p1", by decide, sampleEntry, by decide, rfl⟩⟩

/-- C10: the resolve endpoint scans only the most recent 1000 events per
project, so an id that occurs only earlier than every project's last-1000
window is answered 404 even though the entry is present in the log. -/
theorem C10_resolve_window_scan (store : ContextStore) (eid : String)
    (a? t? : Option String) (fid fts : String)
    (hpresent : ∃ p, ∃ e ∈ (store.events p).getD [], e.id = eid)
    (hwindow : ∀ p ∈ store.projects,
      ∀ e ∈ ((store.events p).getD []).drop (((store.events p).getD []).length - 1000),
        e.id ≠ eid) :
    (QueueServer.handleQueuePost store eid (.obj a? t?) fid fts).1 =
      ⟨404, "\x7b\"error\":\"entry not found\"\x7d"⟩ :=
  handleQueuePost_404_of_window_miss store eid a? t? fid fts hwindow

/-- Instantiation of the window-scan behaviour on `deepStore`: the buried
`target` entry is present but resolves to 404. -/
theorem C10_resolve_window_scan_witness :
    (QueueServer.handleQueuePost deepStore "target" (.obj (some "approve") none)
        "f" "t").1 = ⟨404, "\x7b\"error\":\"entry not found\"\x7d"⟩ :=
  C10_resolve_window_scan deepStore "target" (some "approve") none "f" "t"
    ⟨"p1", oldApproval,
      show oldApproval ∈ oldApproval :: List.replicate 1000 fillerEntry from
        List.mem_cons_self _ _, rfl⟩
    deepStore_window_misses_target

/-- The FIN-plus-opcode byte decodes back to the opcode. -/
theorem lor16_and15 (op : Nat) (hop : op < 16) : (0x80 ||| op) &&& 0xF = op := by
  interval_cases op <;> decide

/-- A literal length byte (below 128) survives the low-7-bit extraction. -/
theorem small_and127 (n : Nat) (h : n < 128) : n &&& 0x7F = n := by
  rw [show (0x7F : Nat) = 2 ^ 7 - 1 from rfl, Nat.and_pow_two_sub_one_eq_mod]
  exact Nat.mod_eq_of_lt h

/-- A literal length byte (below 128) has the mask bit clear. -/
theorem small_mask_bit (n : Nat) (h : n < 128) : (n >>> 7) &&& 1 = 0 := by
  rw [Nat.shiftRight_eq_div_pow, Nat.div_eq_of_lt h]
  decide

/-- Masking preserves length. -/
theorem applyMask_length (m p : List Nat) : (applyMask m p).length = p.length := by
  simp [applyMask]

/-- Masking twice with the same key recovers the payload (XOR involution). -/
theorem applyMask_applyMask (m p : List Nat) : applyMask m (applyMask m p) = p := by
  apply List.ext_getElem
  · simp [applyMask]
  · intro i h1 h2
    simp [applyMask, List.getElem_enum, Nat.xor_cancel_right]

/-- Decoding a frame whose length and mask stages parse and whose payload is
fully present: the payload is the (unmasked) next `length` bytes. -/
theorem ws_read_frame_cons_spec (b0 b1 : Nat) (rest : List Nat) (length : Nat)
    (r1 : List Nat) (mask : Option (List Nat)) (r2 : List Nat)
    (hl : parseLength (b1 &&& 0x7F) rest = some (length, r1))
    (hm : parseMask ((b1 >>> 7) &&& 1) r1 = some (mask, r2))
    (hr : length ≤ r2.length) :
    ws_read_frame (b0 :: b1 :: rest) = some (b0 &&& 0xF,
      (match mask with
       | some m => applyMask m (r2.take length)
       | none => r2.take length),
      r2.drop length) := by
  have hre : readExactly length r2 = some (r2.take length, r2.drop length) := by
    unfold readExactly
    rw [if_pos hr]
  simp only [ws_read_frame, hl, hm, hre]
  cases mask <;> rfl

/-- Round-trip for unmasked frames of any length below `2 ^ 64`: decoding a
written frame restores the opcode and the exact payload. -/
theorem ws_roundtrip (op : Nat) (hop : op < 16) (p : List Nat)
    (hp : p.length < 2 ^ 64) :
    ws_read_frame (ws_write_frame op p) = some (op, p, []) := by
  unfold ws_write_frame
  by_cases h1 : p.length < 126
  · rw [if_pos h1]
    have hframe : ([0x80 ||| op, p.length] ++ p) =
        (0x80 ||| op) :: p.length :: p := rfl
    rw [hframe]
    have hl : parseLength (p.length &&& 0x7F) p = some (p.length, p) := by
      rw [small_and127 p.length (by omega)]
      unfold parseLength
      rw [if_neg (by omega), if_neg (by omega)]
    have hm : parseMask ((p.length >>> 7) &&& 1) p = some (none, p) := by
      rw [small_mask_bit p.length (by omega)]
      unfold parseMask
      rw [if_neg (by omega)]
    rw [ws_read_frame_cons_spec _ _ _ _ _ _ _ hl hm (Nat.le_refl _)]
    rw [List.take_length, List.drop_length, lor16_and15 op hop]
  · by_cases h2 : p.length < 65536
    · rw [if_neg h1, if_pos h2]
      have hframe : ([0x80 ||| op, 126] ++ pack16be p.length ++ p) =
          (0x80 ||| op) :: 126 :: (p.length / 256 % 256 :: p.length % 256 :: p) := rfl
      rw [hframe]
      have hl : parseLength ((126 : Nat) &&& 0x7F)
          (p.length / 256 % 256 :: p.length % 256 :: p) = some (p.length, p) := by
        rw [show (126 : Nat) &&& 0x7F = 126 from by decide]
        unfold parseLength
        rw [if_pos rfl]
        show some (p.length / 256 % 256 * 256 + p.length % 256, p) = some (p.length, p)
        have : p.length / 256 % 256 * 256 + p.length % 256 = p.length := by omega
        rw [this]
      have hm : parseMask (((126 : Nat) >>> 7) &&& 1) p = some (none, p) := by
        rw [show ((126 : Nat) >>> 7) &&& 1 = 0 from by decide]
        unfold parseMask
        rw [if_neg (by omega)]
      rw [ws_read_frame_cons_spec _ _ _ _ _ _ _ hl hm (Nat.le_refl _)]
      rw [List.take_length, List.drop_length, lor16_and15 op hop]
    · rw [if_neg h1, if_neg h2]
      have hframe : ([0x80 ||| op, 127] ++ pack64be p.length ++ p) =
          (0x80 ||| op) :: 127 ::
            (p.length / 256 ^ 7 % 256 :: p.length / 256 ^ 6 % 256 ::
             p.length / 256 ^ 5 % 256 :: p.length / 256 ^ 4 % 256 ::
             p.length / 256 ^ 3 % 256 :: p.length / 256 ^ 2 % 256 ::
             p.length / 256 % 256 :: p.length % 256 :: p) := rfl
      rw [hframe]
      have hl : parseLength ((127 : Nat) &&& 0x7F)
          (p.length / 256 ^ 7 % 256 :: p.length / 256 ^ 6 % 256 ::
           p.length / 256 ^ 5 % 256 :: p.length / 256 ^ 4 % 256 ::
           p.length / 256 ^ 3 % 256 :: p.length / 256 ^ 2 % 256 ::
           p.length / 256 % 256 :: p.length % 256 :: p) = some (p.length, p) := by
        rw [show (127 : Nat) &&& 0x7F = 127 from by decide]
        unfold parseLength
        rw [if_neg (by omega), if_pos rfl]
        show some ((((((((p.length / 256 ^ 7 % 256) * 256 + p.length / 256 ^ 6 % 256) * 256
            + p.length / 256 ^ 5 % 256) * 256 + p.length / 256 ^ 4 % 256) * 256
            + p.length / 256 ^ 3 % 256) * 256 + p.length / 256 ^ 2 % 256) * 256
            + p.length / 256 % 256) * 256 + p.length % 256, p) = some (p.length, p)
        have : (((((((p.length / 256 ^ 7 % 256) * 256 + p.length / 256 ^ 6 % 256) * 256
            + p.length / 256 ^ 5 % 256) * 256 + p.length / 256 ^ 4 % 256) * 256
            + p.length / 256 ^ 3 % 256) * 256 + p.length / 256 ^ 2 % 256) * 256
            + p.length / 256 % 256) * 256 + p.length % 256 = p.length := by omega
        rw [this]
      have hm : parseMask (((127 : Nat) >>> 7) &&& 1) p = some (none, p) := by
        rw [show ((127 : Nat) >>> 7) &&& 1 = 0 from by decide]
        unfold parseMask
        rw [if_neg (by omega)]
      rw [ws_read_frame_cons_spec _ _ _ _ _ _ _ hl hm (Nat.le_refl _)]
      rw [List.take_length, List.drop_length, lor16_and15 op hop]

/-- Decoding a masked frame with the 16-bit length escape: the mask bit set
(second byte `0x80 + 126 = 254`), a 2-byte big-endian length, a 4-byte mask
key, and the decoder XOR-ing each payload byte with `mask[i % 4]`. -/
theorem ws_read_frame_masked16 (op hi lo m0 m1 m2 m3 : Nat) (w : List Nat)
    (hop : op < 16) (hlen : w.length = hi * 256 + lo) :
    ws_read_frame ((0x80 ||| op) :: 254 :: hi :: lo :: ([m0, m1, m2, m3] ++ w))
      = some (op, applyMask [m0, m1, m2, m3] w, []) := by
  have hl : parseLength ((254 : Nat) &&& 0x7F) (hi :: lo :: ([m0, m1, m2, m3] ++ w))
      = some (hi * 256 + lo, [m0, m1, m2, m3] ++ w) := by
    rw [show (254 : Nat) &&& 0x7F = 126 from by decide]
    unfold parseLength
    rw [if_pos rfl]
  have hm : parseMask (((254 : Nat) >>> 7) &&& 1) ([m0, m1, m2, m3] ++ w)
      = some (some [m0, m1, m2, m3], w) := by
    rw [show ((254 : Nat) >>> 7) &&& 1 = 1 from by decide]
    unfold parseMask
    rw [if_pos rfl]
    have hre : readExactly 4 ([m0, m1, m2, m3] ++ w) = some ([m0, m1, m2, m3], w) := by
      unfold readExactly
      rw [if_pos (by simp), List.take_left' (by simp), List.drop_left' (by simp)]
    rw [hre]
  rw [ws_read_frame_cons_spec _ _ _ _ _ _ _ hl hm (by omega)]
  rw [lor16_and15 op hop]
  show some (op, applyMask [m0, m1, m2, m3] (w.take (hi * 256 + lo)),
    w.drop (hi * 256 + lo)) = _
  rw [← hlen, List.take_length, List.drop_length]

/-- The value of eight big-endian bytes, folded exactly as the decoder's
127-escape branch folds them. -/
def be64val (b0 b1 b2 b3 b4 b5 b6 b7 : Nat) : Nat :=
  ((((((b0 * 256 + b1) * 256 + b2) * 256 + b3) * 256 + b4) * 256 + b5) * 256 + b6) * 256
    + b7

/-- Decoding a masked frame with the 64-bit length escape: the mask bit set
(second byte `0x80 + 127 = 255`), an 8-byte big-endian length, a 4-byte mask
key, and the decoder XOR-ing each payload byte with `mask[i % 4]`. -/
theorem ws_read_frame_masked64 (op b0 b1 b2 b3 b4 b5 b6 b7 m0 m1 m2 m3 : Nat)
    (w : List Nat) (hop : op < 16)
    (hlen : w.length = be64val b0 b1 b2 b3 b4 b5 b6 b7) :
    ws_read_frame ((0x80 ||| op) :: 255 :: b0 :: b1 :: b2 :: b3 :: b4 :: b5 :: b6 :: b7
        :: ([m0, m1, m2, m3] ++ w))
      = some (op, applyMask [m0, m1, m2, m3] w, []) := by
  have hl : parseLength ((255 : Nat) &&& 0x7F)
      (b0 :: b1 :: b2 :: b3 :: b4 :: b5 :: b6 :: b7 :: ([m0, m1, m2, m3] ++ w))
      = some (be64val b0 b1 b2 b3 b4 b5 b6 b7, [m0, m1, m2, m3] ++ w) := by
    rw [show (255 : Nat) &&& 0x7F = 127 from by decide]
    unfold parseLength
    rw [if_neg (by omega), if_pos rfl]
    rfl
  have hm : parseMask (((255 : Nat) >>> 7) &&& 1) ([m0, m1, m2, m3] ++ w)
      = some (some [m0, m1, m2, m3], w) := by
    rw [show ((255 : Nat) >>> 7) &&& 1 = 1 from by decide]
    unfold parseMask
    rw [if_pos rfl]
    have hre : readExactly 4 ([m0, m1, m2, m3] ++ w) = some ([m0, m1, m2, m3], w) := by
      unfold readExactly
      rw [if_pos (by simp), List.take_left' (by simp), List.drop_left' (by simp)]
    rw [hre]
  rw [ws_read_frame_cons_spec _ _ _ _ _ _ _ hl hm (by omega)]
  rw [lor16_and15 op hop]
  show some (op, applyMask [m0, m1, m2, m3] (w.take (be64val b0 b1 b2 b3 b4 b5 b6 b7)),
    w.drop (be64val b0 b1 b2 b3 b4 b5 b6 b7)) = _
  rw [← hlen, List.take_length, List.drop_length]

/-- C5: encode/decode round-trip at the length-escape boundaries (payload
lengths 0, 125, 126, 65536 — any 4-bit opcode), the decoder's handling of
masked frames with 2-byte (escape 126) and 8-byte (escape 127) big-endian
lengths, where each payload byte is XOR-ed with `mask[i % 4]`, and the
round-trip with masking applied on the decode side. -/
theorem C5_frame_roundtrip :
    (∀ op : Nat, op < 16 → ∀ p : List Nat,
        p.length = 0 ∨ p.length = 125 ∨ p.length = 126 ∨ p.length = 65536 →
        ws_read_frame (ws_write_frame op p) = some (op, p, []))
      ∧ (∀ op hi lo m0 m1 m2 m3 : Nat, ∀ w : List Nat, op < 16 →
          w.length = hi * 256 + lo →
          ws_read_frame ((0x80 ||| op) :: 254 :: hi :: lo :: ([m0, m1, m2, m3] ++ w))
            = some (op, applyMask [m0, m1, m2, m3] w, []))
      ∧ (∀ op b0 b1 b2 b3 b4 b5 b6 b7 m0 m1 m2 m3 : Nat, ∀ w : List Nat, op < 16 →
          w.length = be64val b0 b1 b2 b3 b4 b5 b6 b7 →
          ws_read_frame ((0x80 ||| op) :: 255 :: b0 :: b1 :: b2 :: b3 :: b4 :: b5 :: b6
              :: b7 :: ([m0, m1, m2, m3] ++ w))
            = some (op, applyMask [m0, m1, m2, m3] w, []))
      ∧ (∀ op m0 m1 m2 m3 : Nat, ∀ p : List Nat, op < 16 → p.length < 65536 →
          ws_read_frame ((0x80 ||| op) :: 254 :: (p.length / 256 % 256)
              :: (p.length % 256) :: ([m0, m1, m2, m3] ++ applyMask [m0, m1, m2, m3] p))
            = some (op, p, [])) := by
  refine ⟨?_, ?_, ?_, ?_⟩
  · intro op hop p hlen
    refine ws_roundtrip op hop p ?_
    rcases hlen with h | h | h | h <;> omega
  · intro op hi lo m0 m1 m2 m3 w hop hlen
    exact ws_read_frame_masked16 op hi lo m0 m1 m2 m3 w hop hlen
  · intro op b0 b1 b2 b3 b4 b5 b6 b7 m0 m1 m2 m3 w hop hlen
    exact ws_read_frame_masked64 op b0 b1 b2 b3 b4 b5 b6 b7 m0 m1 m2 m3 w hop hlen
  · intro op m0 m1 m2 m3 p hop hp
    have hlen : (applyMask [m0, m1, m2, m3] p).length
        = (p.length / 256 % 256) * 256 + p.length % 256 := by
      rw [applyMask_length]
      omega
    rw [ws_read_frame_masked16 op (p.length / 256 % 256) (p.length % 256) m0 m1 m2 m3
      (applyMask [m0, m1, m2, m3] p) hop hlen]
    rw [applyMask_applyMask]

/-- Instantiation of the frame round-trip at boundary length 125 and a
masked two-byte-length frame. -/
theorem C5_frame_roundtrip_witness :
    ws_read_frame (ws_write_frame 1 (List.replicate 125 7))
        = some (1, List.replicate 125 7, [])
      ∧ ws_read_frame ((0x80 ||| 1) :: 254 :: 0 :: 2 :: ([9, 9, 9, 9] ++ [5, 6]))
        = some (1, applyMask [9, 9, 9, 9] [5, 6], [])
      ∧ ws_read_frame ((0x80 ||| 8) :: 254 :: 0 :: 2
            :: ([3, 1, 4, 1] ++ applyMask [3, 1, 4, 1] [10, 20]))
        = some (8, [10, 20], []) :=
  ⟨C5_frame_roundtrip.1 1 (by decide) (List.replicate 125 7)
      (Or.inr (Or.inl (by simp))),
   C5_frame_roundtrip.2.1 1 0 2 9 9 9 9 [5, 6] (by decide) (by decide),
   C5_frame_roundtrip.2.2.2 8 3 1 4 1 [10, 20] (by decide) (by decide)⟩

/-- Every message a poll tick emits is an add or a remove. -/
theorem pollTick_messages (known : List String) (t : Option (List ContextEntry)) :
    ∀ m ∈ (pollTick known t).1,
      (∃ e, m = WsMessage.queue_add e) ∨ (∃ i, m = WsMessage.queue_remove i) := by
  intro m hm
  cases t with
  | none => cases hm
  | some q =>
    simp only [pollTick, List.mem_append, List.mem_map] at hm
    rcases hm with ⟨e, -, he⟩ | ⟨i, -, hi⟩
    · exact Or.inl ⟨e, he.symm⟩
    · exact Or.inr ⟨i, hi.symm⟩

/-- Every message the polling loop emits is an add or a remove. -/
theorem pollLoop_messages (known : List String)
    (ticks : List (Option (List ContextEntry))) :
    ∀ m ∈ (pollLoop known ticks).1,
      (∃ e, m = WsMessage.queue_add e) ∨ (∃ i, m = WsMessage.queue_remove i) := by
  induction ticks generalizing known with
  | nil => intro m hm; cases hm
  | cons t ts ih =>
    intro m hm
    simp only [pollLoop, List.mem_append] at hm
    rcases hm with hm | hm
    · exact pollTick_messages known t m hm
    · exact ih _ m hm

/-- C6: one poll tick emits an add for exactly the current entries whose id
was not remembered and a remove for exactly the remembered ids no longer
current, all adds before all removes, and then remembers the current ids; a
failed tick emits nothing, leaves the remembered set unchanged, and the loop
proceeds with the next tick as if the failed one had not happened. -/
theorem C6_poll_diff (known : List String) (q : List ContextEntry) :
    (∀ e, WsMessage.queue_add e ∈ (pollTick known (some q)).1 ↔
        e ∈ q ∧ e.id ∉ known)
      ∧ (∀ i, WsMessage.queue_remove i ∈ (pollTick known (some q)).1 ↔
        i ∈ known ∧ i ∉ q.map (fun e => e.id))
      ∧ (∃ adds removes, (pollTick known (some q)).1 = adds ++ removes ∧
          (∀ m ∈ adds, ∃ e, m = WsMessage.queue_add e) ∧
          (∀ m ∈ removes, ∃ i, m = WsMessage.queue_remove i))
      ∧ (pollTick known (some q)).2 = q.map (fun e => e.id)
      ∧ pollTick known none = ([], known)
      ∧ (∀ ts, pollLoop known (none :: ts) = pollLoop known ts) := by
  refine ⟨?_, ?_, ?_, rfl, rfl, ?_⟩
  · intro e
    simp [pollTick, List.mem_filter]
  · intro i
    simp [pollTick, List.mem_filter]
  · refine ⟨_, _, rfl, ?_, ?_⟩
    · intro m hm
      obtain ⟨e, -, he⟩ := List.mem_map.mp hm
      exact ⟨e, he.symm⟩
    · intro m hm
      obtain ⟨i, -, hi⟩ := List.mem_map.mp hm
      exact ⟨i, hi.symm⟩
  · intro ts
    simp [pollLoop, pollTick]

/-- Instantiation of the diffing tick: one new entry, one vanished id, and a
failed tick. -/
theorem C6_poll_diff_witness :
    WsMessage.queue_add sampleEntry ∈ (pollTick ["a"] (some [sampleEntry])).1
      ∧ WsMessage.queue_remove "a" ∈ (pollTick ["a"] (some [sampleEntry])).1
      ∧ (pollTick ["a"] none = ([], ["a"]))
      ∧ pollLoop ["a"] [none, some [sampleEntry]] = pollLoop ["a"] [some [sampleEntry]] :=
  ⟨((C6_poll_diff ["a"] [sampleEntry]).1 sampleEntry).mpr ⟨by decide, by decide⟩,
   ((C6_poll_diff ["a"] [sampleEntry]).2.1 "a").mpr ⟨by decide, by decide⟩,
   (C6_poll_diff ["a"] []).2.2.2.2.1,
   (C6_poll_diff ["a"] []).2.2.2.2.2 [some [sampleEntry]]⟩

/-- A store with no projects at all: its queue is empty. -/
def emptyStore : ContextStore :=
  { projects := [], events := fun _ => none, resolved_ids := fun _ => [] }

/-- C7: a connection that completes the upgrade is registered, and the
messages it receives start with a single full-queue snapshot, every later
message being an incremental add or remove; connecting while the queue is
empty yields a snapshot with an empty entry sequence first. -/
theorem C7_ws_upgrade_snapshot (store : ContextStore) (state : ServerState)
    (conn : Nat) (ticks : List (Option (List ContextEntry))) :
    conn ∈ (handleWsUpgrade store state conn).1.ws_clients
      ∧ (∃ rest, connSessionMessages store state conn ticks
            = WsMessage.queue_snapshot store.get_queue :: rest
          ∧ ∀ m ∈ rest, (∃ e, m = WsMessage.queue_add e) ∨
              (∃ i, m = WsMessage.queue_remove i))
      ∧ (store.get_queue = [] →
          connSessionMessages store state conn ticks
            = WsMessage.queue_snapshot [] :: (pollLoop state.known_queue_ids ticks).1) := by
  refine ⟨List.mem_cons_self _ _, ⟨(pollLoop state.known_queue_ids ticks).1, rfl,
    pollLoop_messages state.known_queue_ids ticks⟩, ?_⟩
  intro hempty
  show WsMessage.queue_snapshot store.get_queue :: (pollLoop state.known_queue_ids ticks).1
    = _
  rw [hempty]

/-- Instantiation on a store with no projects: the first and only message of
a tickless session is the empty snapshot. -/
theorem C7_ws_upgrade_snapshot_witness :
    0 ∈ (handleWsUpgrade emptyStore ⟨[], []⟩ 0).1.ws_clients
      ∧ connSessionMessages emptyStore ⟨[], []⟩ 0 []
          = [WsMessage.queue_snapshot []] :=
  ⟨(C7_ws_upgrade_snapshot emptyStore ⟨[], []⟩ 0 []).1,
   ((C7_ws_upgrade_snapshot emptyStore ⟨[], []⟩ 0 []).2.2 rfl).trans rfl⟩

/-- One-step unfolding of `recv`. -/
theorem recv_eq (s : List Nat) : recv s =
    (match ws_read_frame s with
     | none => ⟨none, true, [], s⟩
     | some (op, payload, rest) =>
       if op = OP_CLOSE then
         ⟨none, true, [], rest⟩
       else if op = OP_PING then
         ⟨(recv rest).result, (recv rest).closed, (OP_PONG, payload) :: (recv rest).writes,
          (recv rest).rest⟩
       else if op = OP_TEXT then
         ⟨some payload, false, [], rest⟩
       else
         ⟨none, false, [], rest⟩) := by
  conv_lhs => unfold recv
  split
  case _ heq => rw [heq]
  case _ op payload rest heq => rw [heq]

/-- C8: on the receive path, a ping frame gets an automatic pong write with
the same payload and reception continues on the rest of the stream (the ping
never surfaces as a result); a close frame marks the connection closed and
returns `None`, ending the read loop; a read failure marks the connection
closed and returns instead of raising. -/
theorem C8_recv_behaviour :
    (∀ s : List Nat, ∀ p r : List Nat, ws_read_frame s = some (OP_PING, p, r) →
        recv s = ⟨(recv r).result, (recv r).closed, (OP_PONG, p) :: (recv r).writes,
          (recv r).rest⟩)
      ∧ (∀ s : List Nat, ∀ p r : List Nat, ws_read_frame s = some (OP_CLOSE, p, r) →
        recv s = ⟨none, true, [], r⟩)
      ∧ (∀ s : List Nat, ws_read_frame s = none → recv s = ⟨none, true, [], s⟩) := by
  refine ⟨?_, ?_, ?_⟩
  · intro s p r h
    rw [recv_eq s, h]
    show (if OP_PING = OP_CLOSE then (⟨none, true, [], r⟩ : RecvResult)
      else if OP_PING = OP_PING then
        ⟨(recv r).result, (recv r).closed, (OP_PONG, p) :: (recv r).writes, (recv r).rest⟩
      else if OP_PING = OP_TEXT then ⟨some p, false, [], r⟩
      else ⟨none, false, [], r⟩) = _
    rw [if_neg (by decide), if_pos rfl]
  · intro s p r h
    rw [recv_eq s, h]
    show (if OP_CLOSE = OP_CLOSE then (⟨none, true, [], r⟩ : RecvResult)
      else if OP_CLOSE = OP_PING then
        ⟨(recv r).result, (recv r).closed, (OP_PONG, p) :: (recv r).writes, (recv r).rest⟩
      else if OP_CLOSE = OP_TEXT then ⟨some p, false, [], r⟩
      else ⟨none, false, [], r⟩) = _
    rw [if_pos rfl]
  · intro s h
    rw [recv_eq s, h]

/-- Instantiation on a concrete stream: an unmasked ping with payload `[42]`
followed by a close frame. -/
theorem C8_recv_behaviour_witness :
    ws_read_frame [0x89, 1, 42, 0x88, 0] = some (OP_PING, [42], [0x88, 0])
      ∧ recv [0x89, 1, 42, 0x88, 0]
          = ⟨(recv [0x88, 0]).result, (recv [0x88, 0]).closed,
             (OP_PONG, [42]) :: (recv [0x88, 0]).writes, (recv [0x88, 0]).rest⟩
      ∧ ws_read_frame [0x88, 0] = some (OP_CLOSE, [], [])
      ∧ recv [0x88, 0] = ⟨none, true, [], []⟩ :=
  ⟨by decide,
   C8_recv_behaviour.1 [0x89, 1, 42, 0x88, 0] [42] [0x88, 0] (by decide),
   by decide,
   C8_recv_behaviour.2.1 [0x88, 0] [] [] (by decide)⟩

end Wsh
